import Mathlib

/-!
Verification development for `free_disk_space.py`, a disk-space cleanup
pipeline for CI hosts.  The script is shallowly embedded: external
collaborators (the `df` probe, the `numfmt` formatter, the cleanup
commands, the process environment) are inputs, and every function of the
source is translated into an executable Lean definition.

Conventions:
* Python string operations (`strip`, `split`, `int`, `lower`, `upper`,
  `replace`) are re-implemented structurally over `List Char` so that all
  definitions reduce inside the kernel.
* A fallible external command is a `CmdOutcome`; an uncaught Python
  exception is `Except.error`.
* Machine integers do not occur: Python integers are unbounded, so `Int`
  and `Nat` are exact.
-/

namespace FreeDiskSpace

/-! ## Python string primitives -/

/-- The whitespace class used by Python's `str.strip` and `str.split()`
(ASCII part; the source only ever meets ASCII output). -/
def pyIsSpace (c : Char) : Bool :=
  c = ' ' || c = '\t' || c = '\n' || c = '\r' || c = '\x0b' || c = '\x0c'

/-- Drop leading whitespace from a character list. -/
def stripLeft : List Char → List Char
  | [] => []
  | c :: cs => if pyIsSpace c then stripLeft cs else c :: cs

/-- Python `str.strip()`: remove whitespace from both ends. -/
def pyStrip (s : String) : String :=
  String.mk ((stripLeft ((stripLeft s.data).reverse)).reverse)

/-- Helper for `pySplitNewline`: accumulate the current fragment (reversed). -/
def splitNlAux : List Char → List Char → List String
  | [], acc => [String.mk acc.reverse]
  | c :: cs, acc =>
      if c = '\n' then String.mk acc.reverse :: splitNlAux cs []
      else splitNlAux cs (c :: acc)

/-- Python `s.split('\n')`: every newline separates, empty fragments kept,
`""` yields `[""]`. -/
def pySplitNewline (s : String) : List String :=
  splitNlAux s.data []

/-- Helper for `pySplit`: accumulate the current word (reversed). -/
def pySplitAux : List Char → List Char → List String
  | [], acc => if acc.isEmpty then [] else [String.mk acc.reverse]
  | c :: cs, acc =>
      if pyIsSpace c then
        if acc.isEmpty then pySplitAux cs []
        else String.mk acc.reverse :: pySplitAux cs []
      else pySplitAux cs (c :: acc)

/-- Python `str.split()` with no argument: split on whitespace runs,
discarding empty fragments. -/
def pySplit (s : String) : List String :=
  pySplitAux s.data []

/-- Parse a nonempty all-digit character list as a `Nat`. -/
def parseDigitsAux : List Char → Nat → Option Nat
  | [], acc => some acc
  | c :: cs, acc =>
      if c.isDigit then parseDigitsAux cs (acc * 10 + (c.toNat - '0'.toNat))
      else none

def parseDigits (cs : List Char) : Option Nat :=
  if cs.isEmpty then none else parseDigitsAux cs 0

/-- Model of Python `int(token)` on the whitespace-free tokens produced by
`str.split()`: an optional sign followed by decimal digits.  (Python's
underscore digit separators are not modelled; `df` fields never contain
them.) -/
def pyInt (s : String) : Option Int :=
  match s.data with
  | '-' :: rest => (parseDigits rest).map (fun n => -(n : Int))
  | '+' :: rest => (parseDigits rest).map (fun n => (n : Int))
  | cs => (parseDigits cs).map (fun n => (n : Int))

/-- Python `str.lower()` (ASCII). -/
def pyLower (s : String) : String :=
  String.mk (s.data.map Char.toLower)

/-- Python `str.upper()` (ASCII). -/
def pyUpper (s : String) : String :=
  String.mk (s.data.map Char.toUpper)

/-- Python `s.replace(a, b)` for single-character patterns. -/
def pyReplaceChar (a b : Char) (s : String) : String :=
  String.mk (s.data.map fun c => if c = a then b else c)

/-- Python `' '.join(cmd)`. -/
def pyJoinSpace : List String → String
  | [] => ""
  | [x] => x
  | x :: xs => x ++ " " ++ pyJoinSpace xs

/-! ## SpaceProbe: `get_available_space` (src/free_disk_space.py lines 30-51) -/

/-- What `subprocess.run(cmd, capture_output=True, text=True)` hands back for
the `df` invocation: captured stdout plus the exit status.  The source reads
only `result.stdout`. -/
structure CompletedProcess where
  stdout : String
  returncode : Int
deriving Repr, DecidableEq

/-- Embedding of `get_available_space` (lines 30-51).  The `df -a [path]`
invocation is supplied as its `CompletedProcess`; the function strips the
output, drops the header line, splits each remaining line on whitespace,
and adds `int(parts[3])` whenever the line has at least four fields and the
fourth parses, silently skipping every other line. -/
def get_available_space (result : CompletedProcess) : Int :=
  let lines := (pySplitNewline (pyStrip result.stdout)).drop 1
  lines.foldl
    (fun total line =>
      let parts := pySplit line
      if 4 ≤ parts.length then
        match pyInt (parts.getD 3 "") with
        | some v => total + v
        | none => total
      else total)
    0

/-- The contribution of one data row to `get_available_space`: the parsed
fourth field, or zero when the row is short or unparsable. -/
def rowValue (line : String) : Int :=
  let parts := pySplit line
  if 4 ≤ parts.length then (pyInt (parts.getD 3 "")).getD 0 else 0

/-- The data rows of a `df` report: everything after the header line. -/
def dataRows (stdout : String) : List String :=
  (pySplitNewline (pyStrip stdout)).drop 1

/-! ## ByteFormatter: `format_byte_count` (lines 53-61) and its `numfmt`
collaborator -/

/-- Number of times `numfmt` divides the magnitude by 1024 before it is
below 1024 (fuel-based so that it reduces in the kernel; `a` itself is
always enough fuel). -/
def iecPowerAux : Nat → Nat → Nat
  | 0, _ => 0
  | fuel + 1, a => if a < 1024 then 0 else iecPowerAux fuel (a / 1024) + 1

def iecPower (a : Nat) : Nat := iecPowerAux a a

/-- Binary-unit letter for a power of 1024 in `--to=iec-i` mode. -/
def iecUnit : Nat → String
  | 0 => ""
  | 1 => "Ki"
  | 2 => "Mi"
  | 3 => "Gi"
  | 4 => "Ti"
  | 5 => "Pi"
  | 6 => "Ei"
  | 7 => "Zi"
  | _ => "Yi"

/-- Left-pad with spaces to the given width (numfmt `--padding=7`). -/
def padLeft (w : Nat) (s : String) : String :=
  String.mk (List.replicate (w - s.data.length) ' ') ++ s

/-- Model of the external collaborator
`numfmt --to=iec-i --suffix=B --padding=7` applied to the integer `v`
(GNU coreutils semantics, default from-zero rounding): scale the magnitude
by the largest power of 1024 that leaves it below 1024; if the scaled value
is below 10 show one rounded decimal digit (except at power 0, where the
value is integral and shown as is; a value that rounds up to 10.0 is shown
as `10`), otherwise round up to an integer, moving up one unit when that
rounding reaches 1024; then sign, unit suffix, a trailing `B`, and padding
to width 7.  Validated against GNU numfmt on an exhaustive battery of
inputs, including the rounding edge cases. -/
def numfmt_iec_i (v : Int) : String :=
  let a := v.natAbs
  let x := iecPower a
  let q := 1024 ^ x
  let p : String × Nat :=
    if a < 10 * q then
      if x = 0 then (toString a, 0)
      else
        let n := (10 * a + (q - 1)) / q
        if n < 100 then (toString (n / 10) ++ "." ++ toString (n % 10), x)
        else (toString (n / 10), x)
    else
      let m := (a + (q - 1)) / q
      if m < 1024 then (toString m, x) else ("1.0", x + 1)
  padLeft 7 ((if v < 0 then "-" else "") ++ p.1 ++ iecUnit p.2 ++ "B")

/-- Embedding of `format_byte_count` (lines 53-61): the source passes
`f"{kb}000"` — the decimal numeral of `1000 * kb` — to `numfmt` and returns
`result.stdout.strip()`, so the padding `numfmt` was asked for is stripped
away again. -/
def format_byte_count (kb : Int) : String :=
  pyStrip (numfmt_iec_i (1000 * kb))

/-! ## Console reporting helpers (lines 26-28, 63-102) -/

/-- `print_separation_line` (lines 26-28): one transcript line of `num`
copies of `char`. -/
def print_separation_line (char : Char) (num : Nat) : String :=
  String.mk (List.replicate num char)

/-- `print_saved_space` (lines 63-77) as the list of console lines it
prints. -/
def print_saved_space (saved : Int) (title : Option String) : List String :=
  [""] ++
  [print_separation_line '*' 80] ++
  [match title with
   | some t => "=> " ++ t ++ ": Saved " ++ format_byte_count saved
   | none => "=> Saved " ++ format_byte_count saved] ++
  [print_separation_line '*' 80] ++
  [""]

/-- `print_dh` (lines 79-102) as the list of console lines it prints.  The
three raw `df` dumps go to the console directly (`check=False`, output not
captured); they are supplied by the world as opaque strings `raw (3*k)`,
`raw (3*k+1)`, `raw (3*k+2)` where `k` counts `print_dh` invocations. -/
def print_dh (raw : Nat → String) (k : Nat) (caption : Option String) : List String :=
  [print_separation_line '=' 80] ++
  (match caption with
   | some c => [c, ""]
   | none => []) ++
  ["$ df -h /", "", raw (3 * k),
   "$ df -a /", "", raw (3 * k + 1),
   "$ df -a", "", raw (3 * k + 2),
   print_separation_line '=' 80]

/-! ## StageRunner: `run_command` (lines 104-121) -/

/-- How an external command invocation ends: the process terminates with
some exit status, or it cannot be started at all (Python raises `OSError`
from `subprocess.run`, which `run_command` does not catch). -/
inductive CmdOutcome where
  | terminated (returncode : Int)
  | spawnFailure
deriving Repr, DecidableEq

/-- Embedding of `run_command` (lines 104-121).  `subprocess.run(cmd,
check=True)` raises `CalledProcessError` exactly when the exit status is
nonzero; the handler prints a `::warning::` line only when `error_msg` was
supplied, forwards the failure to Sentry only when a DSN is configured,
and returns `False`; on a zero exit status the function returns `True`.
A spawn failure is not caught and propagates (`Except.error`).  The result
carries (return value, console lines printed, telemetry events sent). -/
def run_command (dsn : String) (outcome : CmdOutcome) (cmd : List String)
    (error_msg : Option String) : Except Unit (Bool × List String × List String) :=
  match outcome with
  | .terminated rc =>
      if rc = 0 then .ok (true, [], [])
      else
        .ok (false,
          (match error_msg with
           | some msg => ["::warning::" ++ msg]
           | none => []),
          (if dsn ≠ "" then ["capture_exception: " ++ pyJoinSpace cmd] else []))
  | .spawnFailure => .error ()

/-! ## Configuration: `get_input` (lines 123-126) -/

/-- Embedding of `get_input` (lines 123-126): read
`INPUT_<name with hyphens as underscores, uppercased>` from the
environment, fall back to `default`, and compare lowercased against
`"true"`. -/
def get_input (env : String → Option String) (name : String) (default : String) : Bool :=
  let var_name := "INPUT_" ++ pyUpper (pyReplaceChar '-' '_' name)
  pyLower ((env var_name).getD default) == "true"

/-! ## The cleanup stages (lines 141-244) -/

/-- One best-effort external operation: the command line, and the
diagnostic message (if any) handed to `run_command`. -/
structure Op where
  cmd : List String
  errorMsg : Option String
deriving Repr, DecidableEq

/-- The eleven `apt-get` command lines of the large-packages stage
(lines 181-193). -/
def apt_commands : List (List String) :=
  [["sudo", "apt-get", "remove", "-y", "^aspnetcore-.*"],
   ["sudo", "apt-get", "remove", "-y", "^dotnet-.*", "--fix-missing"],
   ["sudo", "apt-get", "remove", "-y", "^llvm-.*", "--fix-missing"],
   ["sudo", "apt-get", "remove", "-y", "php.*", "--fix-missing"],
   ["sudo", "apt-get", "remove", "-y", "^mongodb-.*", "--fix-missing"],
   ["sudo", "apt-get", "remove", "-y", "^mysql-.*", "--fix-missing"],
   ["sudo", "apt-get", "remove", "-y", "azure-cli", "google-chrome-stable",
    "firefox", "powershell", "mono-devel", "libgl1-mesa-dri", "--fix-missing"],
   ["sudo", "apt-get", "remove", "-y", "google-cloud-sdk", "--fix-missing"],
   ["sudo", "apt-get", "remove", "-y", "google-cloud-cli", "--fix-missing"],
   ["sudo", "apt-get", "autoremove", "-y"],
   ["sudo", "apt-get", "clean"]]

def androidOps : List Op :=
  [⟨["sudo", "rm", "-rf", "/usr/local/lib/android"], none⟩]

def dotnetOps : List Op :=
  [⟨["sudo", "rm", "-rf", "/usr/share/dotnet"], none⟩]

def haskellOps : List Op :=
  [⟨["sudo", "rm", "-rf", "/opt/ghc"], none⟩,
   ⟨["sudo", "rm", "-rf", "/usr/local/.ghcup"], none⟩]

/-- The large-packages batch (lines 195-200): each apt command is run with
the diagnostic message built at line 198. -/
def largePackagesOps : List Op :=
  apt_commands.map fun c =>
    ⟨c, some ("The command [" ++ pyJoinSpace c ++
              "] failed to complete successfully. Proceeding...")⟩

def dockerOps : List Op :=
  [⟨["sudo", "docker", "image", "prune", "--all", "--force"], none⟩]

/-- Tool-cache stage operations (lines 222-226): remove the directory named
by `AGENT_TOOLSDIRECTORY`, and do nothing when that variable is unset or
empty (Python truthiness of the defaulted string). -/
def toolCacheOps (env : String → Option String) : List Op :=
  let agent_tools_dir := (env "AGENT_TOOLSDIRECTORY").getD ""
  if agent_tools_dir = "" then []
  else [⟨["sudo", "rm", "-rf", agent_tools_dir], none⟩]

def swapOps : List Op :=
  [⟨["sudo", "swapoff", "-a"], none⟩,
   ⟨["sudo", "rm", "-f", "/mnt/swapfile"], none⟩,
   ⟨["free", "-h"], none⟩]

/-- One stage as wired in `main`: configuration flag name, the default
passed to `get_input`, the banner title, and the operations. -/
structure StageSpec where
  flag : String
  dflt : String
  title : String
  ops : List Op
deriving Repr, DecidableEq

/-- The seven stages of `main` in declaration order (lines 141-244).  The
source writes them as seven consecutive `if get_input(...)` blocks of
identical shape; this table records flag, default, banner title and
operations of each block in that order. -/
def stages (env : String → Option String) : List StageSpec :=
  [⟨"android", "true", "Android library", androidOps⟩,
   ⟨"dotnet", "true", ".NET runtime", dotnetOps⟩,
   ⟨"haskell", "true", "Haskell runtime", haskellOps⟩,
   ⟨"large-packages", "true", "Large misc. packages", largePackagesOps⟩,
   ⟨"docker-images", "true", "Docker images", dockerOps⟩,
   ⟨"tool-cache", "false", "Tool cache", toolCacheOps env⟩,
   ⟨"swap-storage", "true", "Swap storage", swapOps⟩]

/-! ## The pipeline: `main` (lines 128-272) -/

/-- The external world one run interacts with: the process environment,
the captured `df -a` output of the k-th all-mounts probe, the captured
`df -a /` output of the k-th root probe, the outcome of the k-th cleanup
command, and the raw console dumps of the `df` invocations inside
`print_dh`. -/
structure World where
  env : String → Option String
  dfAll : Nat → CompletedProcess
  dfRoot : Nat → CompletedProcess
  cmd : Nat → CmdOutcome
  raw : Nat → String

/-- `SENTRY_DSN = os.environ.get("SENTRY_DSN", "")` (line 9). -/
def sentryDsn (env : String → Option String) : String :=
  (env "SENTRY_DSN").getD ""

/-- The per-stage accounting record kept by each enabled block of `main`:
banner title, the two bracketing all-mounts measurements, and
`saved = after - before` (lines 144-150 and the parallel blocks). -/
structure StageReport where
  name : String
  before : Int
  after : Int
  saved : Int
deriving Repr, DecidableEq, Inhabited

/-- Mutable run state threaded through the pipeline: probe counters for
the two scopes, the cleanup-command counter, the stage reports, the log of
attempted commands, the `run_command` return values in order, the console
transcript, and the telemetry events. -/
structure RunState where
  aIdx : Nat
  rIdx : Nat
  cIdx : Nat
  reports : List StageReport
  cmdLog : List (List String)
  results : List Bool
  transcript : List String
  telemetry : List String
deriving Repr, DecidableEq

def RunState.init : RunState := ⟨0, 0, 0, [], [], [], [], []⟩

/-- The batch loop of a stage (e.g. lines 195-200): run each operation via
`run_command`, recording the attempted command, the returned boolean, any
warning lines and any telemetry; individual failures never stop the batch,
only a spawn failure propagates. -/
def runOps (dsn : String) (outcome : Nat → CmdOutcome) :
    List Op → RunState → Except Unit RunState
  | [], st => .ok st
  | op :: rest, st =>
      match run_command dsn (outcome st.cIdx) op.cmd op.errorMsg with
      | .error e => .error e
      | .ok (success, outLines, tele) =>
          runOps dsn outcome rest
            { st with
              cIdx := st.cIdx + 1,
              cmdLog := st.cmdLog ++ [op.cmd],
              results := st.results ++ [success],
              transcript := st.transcript ++ outLines,
              telemetry := st.telemetry ++ tele }

/-- One enabled stage block of `main` (e.g. lines 143-150): measure
`before` on the all-mounts scope, attempt every operation, measure
`after`, record `saved = after - before` and print the banner. -/
def runStage (w : World) (title : String) (ops : List Op) (st : RunState) :
    Except Unit RunState :=
  let before := get_available_space (w.dfAll st.aIdx)
  let st1 := { st with aIdx := st.aIdx + 1 }
  match runOps (sentryDsn w.env) w.cmd ops st1 with
  | .error e => .error e
  | .ok st2 =>
      let after := get_available_space (w.dfAll st2.aIdx)
      let st3 := { st2 with aIdx := st2.aIdx + 1 }
      let saved := after - before
      .ok { st3 with
        reports := st3.reports ++ [⟨title, before, after, saved⟩],
        transcript := st3.transcript ++ print_saved_space saved (some title) }

/-- The stage sequence of `main` (lines 141-244): consult the flag of each
stage in declaration order and run the enabled ones. -/
def runStages (w : World) : List StageSpec → RunState → Except Unit RunState
  | [], st => .ok st
  | sp :: rest, st =>
      if get_input w.env sp.flag sp.dflt then
        match runStage w sp.title sp.ops st with
        | .error e => .error e
        | .ok st2 => runStages w rest st2
      else runStages w rest st

/-- Everything one completed run yields (the `RunSummary` of the spec):
the four global measurements, the two aggregates of lines 251-252, the
stage reports, and the observable traces. -/
structure RunSummary where
  available_initial : Int
  available_root_initial : Int
  available_end : Int
  available_root_end : Int
  total_saved : Int
  root_saved : Int
  reports : List StageReport
  cmdLog : List (List String)
  results : List Bool
  transcript : List String
  telemetry : List String
deriving Repr, DecidableEq, Inhabited

/-- The run state after the initial probes and the "BEFORE CLEAN-UP"
report (lines 129-139): both probe counters at 1, the opening transcript,
and the module-level Sentry initialisation event when a DSN is set. -/
def initState (w : World) : RunState :=
  { RunState.init with
    aIdx := 1, rIdx := 1,
    transcript := print_dh w.raw 0 (some "BEFORE CLEAN-UP:") ++ [""],
    telemetry := if sentryDsn w.env ≠ "" then ["sentry.init"] else [] }

/-- Embedding of `main` (lines 128-272): initial all-mounts and root
probes (lines 133-134), the "BEFORE CLEAN-UP" report (lines 138-139), the
seven optional stages in order, the final probes (lines 248-249), the two
aggregates `root_saved`/`total_saved` (lines 251-252), and the closing
report (lines 259-267).  The module-level Sentry initialisation
(lines 9-20) contributes only a telemetry event when a DSN is set. -/
def main (w : World) : Except Unit RunSummary :=
  let available_initial := get_available_space (w.dfAll 0)
  let available_root_initial := get_available_space (w.dfRoot 0)
  match runStages w (stages w.env) (initState w) with
  | .error e => .error e
  | .ok st2 =>
      let available_end := get_available_space (w.dfAll st2.aIdx)
      let available_root_end := get_available_space (w.dfRoot st2.rIdx)
      let st3 := { st2 with aIdx := st2.aIdx + 1, rIdx := st2.rIdx + 1 }
      let root_saved := available_root_end - available_root_initial
      let total_saved := available_end - available_initial
      .ok
        { available_initial := available_initial
          available_root_initial := available_root_initial
          available_end := available_end
          available_root_end := available_root_end
          total_saved := total_saved
          root_saved := root_saved
          reports := st3.reports
          cmdLog := st3.cmdLog
          results := st3.results
          transcript := st3.transcript ++ [""] ++
            print_dh w.raw 1 (some "AFTER CLEAN-UP:") ++ ["", ""] ++
            ["/dev/root:"] ++ print_saved_space root_saved none ++
            ["overall:"] ++ print_saved_space total_saved none
          telemetry := st3.telemetry }

/-- The stages of a list that the environment enables. -/
def enabledStages (env : String → Option String) (l : List StageSpec) : List StageSpec :=
  l.filter fun sp => get_input env sp.flag sp.dflt

/-! ## Demonstration worlds used by concrete instances -/

/-- An environment that disables every defaulted-on stage except android. -/
def onlyAndroidEnv : String → Option String := fun v =>
  if v = "INPUT_DOTNET" ∨ v = "INPUT_HASKELL" ∨ v = "INPUT_LARGE_PACKAGES" ∨
     v = "INPUT_DOCKER_IMAGES" ∨ v = "INPUT_SWAP_STORAGE" then some "false" else none

/-- A well-formed one-row `df` report with the given available count. -/
def demoDf (avail : Int) : CompletedProcess :=
  ⟨"Filesystem 1K-blocks Used Available Use% Mounted on\n/dev/root 100 50 " ++
    toString avail ++ " 50% /", 0⟩

/-- A world in which only the android stage runs, every command succeeds,
and available space shrinks from 100 KB to 95 KB across the stage, so the
stage delta is negative. -/
def negWorld : World :=
  { env := onlyAndroidEnv,
    dfAll := fun k => if k = 0 then demoDf 100 else if k = 1 then demoDf 100 else demoDf 95,
    dfRoot := fun _ => demoDf 50,
    cmd := fun _ => CmdOutcome.terminated 0,
    raw := fun _ => "" }

/-- The summary `negWorld` produces (extracted; `negWorld_main` below
proves `main` indeed returns it). -/
def negSummary : RunSummary :=
  (main negWorld).toOption.getD default

/-- The single stage report of `negWorld`'s run. -/
def negReport : StageReport :=
  negSummary.reports.headD default

/-! ## Observability and agreement notions -/

/-- A run state with its telemetry channel erased: everything that is
externally observable (probe indices, reports, command log, `run_command`
return values, console transcript). -/
def RunState.stripTele (st : RunState) : RunState :=
  { st with telemetry := [] }

/-- A run summary with its telemetry channel erased. -/
def RunSummary.stripTele (s : RunSummary) : RunSummary :=
  { s with telemetry := [] }

/-- Two environments that agree everywhere except possibly on the
telemetry endpoint variable. -/
def EnvAgree (e₁ e₂ : String → Option String) : Prop :=
  ∀ v, v ≠ "SENTRY_DSN" → e₁ v = e₂ v

/-- Override only the telemetry endpoint of a world's environment. -/
def setDsn (w : World) (d : Option String) : World :=
  { w with env := fun v => if v = "SENTRY_DSN" then d else w.env v }

/-- The sum described by the specification of the probe: over every data
row of the report (header excluded), the parsed fourth whitespace field,
where a short or unparsable row contributes zero. -/
def spec_row_sum (stdout : String) : Int :=
  ((dataRows stdout).map rowValue).sum

theorem negWorld_main : main negWorld = Except.ok negSummary := by rfl

/-! ## Row-sum characterisation of the probe -/

theorem gas_step (total : Int) (line : String) :
    (let parts := pySplit line
     if 4 ≤ parts.length then
       match pyInt (parts.getD 3 "") with
       | some v => total + v
       | none => total
     else total) = total + rowValue line := by
  by_cases hlen : 4 ≤ (pySplit line).length
  · cases h : pyInt ((pySplit line).getD 3 "") <;>
      simp only [List.getD_eq_getElem?_getD] at h <;>
      simp [rowValue, hlen, h]
  · simp [rowValue, hlen]

theorem gas_foldl (ls : List String) :
    ∀ t : Int,
      ls.foldl
        (fun total line =>
          let parts := pySplit line
          if 4 ≤ parts.length then
            match pyInt (parts.getD 3 "") with
            | some v => total + v
            | none => total
          else total) t
      = t + (ls.map rowValue).sum := by
  induction ls with
  | nil => intro t; simp
  | cons l ls ih =>
      intro t
      simp only [List.foldl_cons, List.map_cons, List.sum_cons]
      rw [gas_step, ih, add_assoc]

/-- `get_available_space` is the sum of the per-row contributions of the
data rows. -/
theorem get_available_space_eq_sum (r : CompletedProcess) :
    get_available_space r = ((dataRows r.stdout).map rowValue).sum := by
  unfold get_available_space dataRows
  rw [gas_foldl]
  simp

/-! ## Basic facts about `run_command` and the stage loops -/

theorem run_command_terminated (dsn : String) (cmd : List String)
    (msg : Option String) (rc : Int) :
    ∃ v, run_command dsn (.terminated rc) cmd msg = .ok v := by
  by_cases h : rc = 0 <;> simp [run_command, h]

theorem runOps_ok (dsn : String) (outc : Nat → CmdOutcome) :
    ∀ (ops : List Op) (st st' : RunState), runOps dsn outc ops st = .ok st' →
      st'.aIdx = st.aIdx ∧ st'.rIdx = st.rIdx ∧ st'.reports = st.reports ∧
      st'.cmdLog = st.cmdLog ++ ops.map Op.cmd ∧ st'.cIdx = st.cIdx + ops.length := by
  intro ops
  induction ops with
  | nil =>
      intro st st' h
      simp only [runOps, Except.ok.injEq] at h
      subst h
      simp
  | cons op rest ih =>
      intro st st' h
      simp only [runOps] at h
      split at h
      · exact absurd h (by simp)
      · obtain ⟨hA, hR, hRep, hLog, hC⟩ := ih _ _ h
        have hA' : st'.aIdx = st.aIdx := hA
        have hR' : st'.rIdx = st.rIdx := hR
        have hRep' : st'.reports = st.reports := hRep
        have hLog' : st'.cmdLog = st.cmdLog ++ [op.cmd] ++ rest.map Op.cmd := hLog
        have hC' : st'.cIdx = st.cIdx + 1 + rest.length := hC
        refine ⟨hA', hR', hRep', ?_, ?_⟩
        · simpa [List.append_assoc] using hLog'
        · simp only [List.length_cons]
          omega

theorem runStage_ok (w : World) (title : String) (ops : List Op) (st st' : RunState)
    (h : runStage w title ops st = .ok st') :
    st'.aIdx = st.aIdx + 2 ∧ st'.rIdx = st.rIdx ∧
    st'.reports = st.reports ++
      [⟨title, get_available_space (w.dfAll st.aIdx),
        get_available_space (w.dfAll (st.aIdx + 1)),
        get_available_space (w.dfAll (st.aIdx + 1)) -
          get_available_space (w.dfAll st.aIdx)⟩] ∧
    st'.cmdLog = st.cmdLog ++ ops.map Op.cmd := by
  simp only [runStage] at h
  split at h
  · exact absurd h (by simp)
  · rename_i st2 heq
    obtain ⟨hA, hR, hRep, hLog, _⟩ := runOps_ok _ _ _ _ _ heq
    have hA2 : st2.aIdx = st.aIdx + 1 := hA
    have hR2 : st2.rIdx = st.rIdx := hR
    have hRep2 : st2.reports = st.reports := hRep
    have hLog2 : st2.cmdLog = st.cmdLog ++ ops.map Op.cmd := hLog
    simp only [Except.ok.injEq] at h
    subst h
    refine ⟨?_, hR2, ?_, hLog2⟩
    · show st2.aIdx + 1 = st.aIdx + 2
      omega
    · show st2.reports ++ [_] = st.reports ++ [_]
      rw [hRep2, hA2]

theorem runStages_ok (w : World) :
    ∀ (l : List StageSpec) (st st' : RunState), runStages w l st = .ok st' →
      st'.aIdx = st.aIdx + 2 * (enabledStages w.env l).length ∧
      st'.rIdx = st.rIdx ∧
      st'.reports.map StageReport.name
        = st.reports.map StageReport.name ++ (enabledStages w.env l).map StageSpec.title ∧
      st'.cmdLog = st.cmdLog ++ (enabledStages w.env l).flatMap (fun sp => sp.ops.map Op.cmd) ∧
      (∀ r ∈ st'.reports, r ∈ st.reports ∨ r.saved = r.after - r.before) := by
  intro l
  induction l with
  | nil =>
      intro st st' h
      simp only [runStages, Except.ok.injEq] at h
      subst h
      refine ⟨by simp [enabledStages], rfl, by simp [enabledStages], by simp [enabledStages], ?_⟩
      exact fun r hr => Or.inl hr
  | cons sp rest ih =>
      intro st st' h
      simp only [runStages] at h
      split at h
      · rename_i hen
        split at h
        · exact absurd h (by simp)
        · rename_i st2 heq
          obtain ⟨hA2, hR2, hRep2, hLog2⟩ := runStage_ok _ _ _ _ _ heq
          obtain ⟨hA, hR, hRepN, hLog, hSaved⟩ := ih _ _ h
          have hfil : enabledStages w.env (sp :: rest) = sp :: enabledStages w.env rest := by
            simp [enabledStages, List.filter_cons, hen]
          refine ⟨?_, by rw [hR, hR2], ?_, ?_, ?_⟩
          · rw [hfil]
            simp only [List.length_cons]
            rw [hA, hA2]
            ring
          · rw [hfil, hRepN, hRep2]
            simp
          · rw [hfil, hLog, hLog2]
            simp [List.append_assoc]
          · intro r hr
            rcases hSaved r hr with hmem | hs
            · rw [hRep2] at hmem
              rcases List.mem_append.mp hmem with hmem' | hone
              · exact Or.inl hmem'
              · refine Or.inr ?_
                have : r = ⟨sp.title, get_available_space (w.dfAll st.aIdx),
                    get_available_space (w.dfAll (st.aIdx + 1)),
                    get_available_space (w.dfAll (st.aIdx + 1)) -
                      get_available_space (w.dfAll st.aIdx)⟩ := by
                  simpa using hone
                rw [this]
            · exact Or.inr hs
      · rename_i hen
        have hfil : enabledStages w.env (sp :: rest) = enabledStages w.env rest := by
          simp [enabledStages, List.filter_cons, hen]
        rw [hfil] at *
        exact ih _ _ h

theorem runOps_term (dsn : String) (outc : Nat → CmdOutcome)
    (hterm : ∀ k, ∃ rc, outc k = .terminated rc) :
    ∀ (ops : List Op) (st : RunState), ∃ st', runOps dsn outc ops st = .ok st' := by
  intro ops
  induction ops with
  | nil => exact fun st => ⟨st, rfl⟩
  | cons op rest ih =>
      intro st
      obtain ⟨rc, hrc⟩ := hterm st.cIdx
      obtain ⟨⟨b, outl, tele⟩, hv⟩ := run_command_terminated dsn op.cmd op.errorMsg rc
      simp only [runOps, hrc, hv]
      exact ih _

theorem runStage_term (w : World) (title : String) (ops : List Op) (st : RunState)
    (hterm : ∀ k, ∃ rc, w.cmd k = .terminated rc) :
    ∃ st', runStage w title ops st = .ok st' := by
  obtain ⟨st2, h2⟩ := runOps_term (sentryDsn w.env) w.cmd hterm ops
    { st with aIdx := st.aIdx + 1 }
  simp only [runStage, h2]
  exact ⟨_, rfl⟩

theorem runStages_term (w : World)
    (hterm : ∀ k, ∃ rc, w.cmd k = .terminated rc) :
    ∀ (l : List StageSpec) (st : RunState), ∃ st', runStages w l st = .ok st' := by
  intro l
  induction l with
  | nil => exact fun st => ⟨st, rfl⟩
  | cons sp rest ih =>
      intro st
      by_cases hen : get_input w.env sp.flag sp.dflt
      · obtain ⟨st2, h2⟩ := runStage_term w sp.title sp.ops st hterm
        simp only [runStages, hen, if_true, h2]
        exact ih _
      · simp only [runStages, hen, if_false]
        exact ih _

theorem main_term (w : World)
    (hterm : ∀ k, ∃ rc, w.cmd k = .terminated rc) :
    ∃ s, main w = .ok s := by
  simp only [main]
  obtain ⟨st2, h2⟩ := runStages_term w hterm (stages w.env) _
  rw [h2]
  exact ⟨_, rfl⟩

/-! ## Telemetry noninterference machinery -/

theorem input_var_ne_sentry (s : String) : "INPUT_" ++ s ≠ "SENTRY_DSN" := by
  obtain ⟨l⟩ := s
  intro h
  have h2 := congrArg (fun t : String => t.data.head?) h
  have h3 : (some 'I' : Option Char) = some 'S' := h2
  exact absurd h3 (by decide)

theorem get_input_agree {e₁ e₂ : String → Option String} (h : EnvAgree e₁ e₂)
    (name d : String) : get_input e₁ name d = get_input e₂ name d := by
  show (pyLower ((e₁ ("INPUT_" ++ pyUpper (pyReplaceChar '-' '_' name))).getD d) == "true")
      = (pyLower ((e₂ ("INPUT_" ++ pyUpper (pyReplaceChar '-' '_' name))).getD d) == "true")
  rw [h _ (input_var_ne_sentry _)]

theorem stages_agree {e₁ e₂ : String → Option String} (h : EnvAgree e₁ e₂) :
    stages e₁ = stages e₂ := by
  unfold stages toolCacheOps
  rw [h "AGENT_TOOLSDIRECTORY" (by decide)]

/-- The return value and the console lines of `run_command` do not depend
on the telemetry endpoint; only the telemetry component does. -/
theorem run_command_obs (d₁ d₂ : String) (o : CmdOutcome) (c : List String)
    (m : Option String) :
    (run_command d₁ o c m).map (fun r => (r.1, r.2.1))
      = (run_command d₂ o c m).map (fun r => (r.1, r.2.1)) := by
  cases o with
  | terminated rc =>
      by_cases h : rc = 0
      · simp [run_command, h]
      · simp only [run_command, if_neg h]
        rfl
  | spawnFailure => rfl

theorem runOps_obs (d₁ d₂ : String) (outc : Nat → CmdOutcome) :
    ∀ (ops : List Op) (st₁ st₂ : RunState), st₁.stripTele = st₂.stripTele →
      (runOps d₁ outc ops st₁).map RunState.stripTele
        = (runOps d₂ outc ops st₂).map RunState.stripTele := by
  intro ops
  induction ops with
  | nil =>
      intro st₁ st₂ h
      simp only [runOps, Except.map]
      rw [h]
  | cons op rest ih =>
      intro st₁ st₂ h
      obtain ⟨a₁, r₁, c₁, rep₁, log₁, res₁, tr₁, te₁⟩ := st₁
      obtain ⟨a₂, r₂, c₂, rep₂, log₂, res₂, tr₂, te₂⟩ := st₂
      simp only [RunState.stripTele, RunState.mk.injEq, and_true] at h
      obtain ⟨hA, hR, hC, hRep, hLog, hRes, hTr⟩ := h
      subst hA; subst hR; subst hC; subst hRep; subst hLog; subst hRes; subst hTr
      simp only [runOps]
      cases houtc : outc c₁ with
      | terminated rc =>
          by_cases h0 : rc = 0
          · simp only [run_command, h0, if_pos]
            exact ih _ _ rfl
          · simp only [run_command, h0, if_neg, ite_false]
            exact ih _ _ rfl
      | spawnFailure => rfl

/-- `runStage` is `runOps` followed by a pure post-processing step. -/
theorem runStage_eq_map (w : World) (title : String) (ops : List Op) (st : RunState) :
    runStage w title ops st
      = (runOps (sentryDsn w.env) w.cmd ops { st with aIdx := st.aIdx + 1 }).map
          (fun st2 =>
            { st2 with
              aIdx := st2.aIdx + 1,
              reports := st2.reports ++
                [⟨title, get_available_space (w.dfAll st.aIdx),
                  get_available_space (w.dfAll st2.aIdx),
                  get_available_space (w.dfAll st2.aIdx) -
                    get_available_space (w.dfAll st.aIdx)⟩],
              transcript := st2.transcript ++
                print_saved_space
                  (get_available_space (w.dfAll st2.aIdx) -
                    get_available_space (w.dfAll st.aIdx)) (some title) }) := by
  simp only [runStage]
  cases runOps (sentryDsn w.env) w.cmd ops { st with aIdx := st.aIdx + 1 } <;> rfl

theorem map_map_strip (e₁ e₂ : Except Unit RunState) (g₁ g₂ : RunState → RunState)
    (h : e₁.map RunState.stripTele = e₂.map RunState.stripTele)
    (hg : ∀ s₁ s₂, s₁.stripTele = s₂.stripTele → (g₁ s₁).stripTele = (g₂ s₂).stripTele) :
    (e₁.map g₁).map RunState.stripTele = (e₂.map g₂).map RunState.stripTele := by
  cases e₁ with
  | error e =>
      cases e₂ with
      | error e' => cases e; cases e'; rfl
      | ok s => simp [Except.map] at h
  | ok s₁ =>
      cases e₂ with
      | error e => simp [Except.map] at h
      | ok s₂ =>
          simp only [Except.map, Except.ok.injEq] at h ⊢
          exact hg s₁ s₂ h

theorem runStage_obs (w₁ w₂ : World) (hdf : w₁.dfAll = w₂.dfAll)
    (hcmd : w₁.cmd = w₂.cmd) (title : String) (ops : List Op)
    (st₁ st₂ : RunState) (h : st₁.stripTele = st₂.stripTele) :
    (runStage w₁ title ops st₁).map RunState.stripTele
      = (runStage w₂ title ops st₂).map RunState.stripTele := by
  obtain ⟨a₁, r₁, c₁, rep₁, log₁, res₁, tr₁, te₁⟩ := st₁
  obtain ⟨a₂, r₂, c₂, rep₂, log₂, res₂, tr₂, te₂⟩ := st₂
  simp only [RunState.stripTele, RunState.mk.injEq, and_true] at h
  obtain ⟨hA, hR, hC, hRep, hLog, hRes, hTr⟩ := h
  subst hA; subst hR; subst hC; subst hRep; subst hLog; subst hRes; subst hTr
  rw [runStage_eq_map, runStage_eq_map, hdf, hcmd]
  refine map_map_strip _ _ _ _ (runOps_obs _ _ _ _ _ _ rfl) ?_
  intro s₁ s₂ hs
  obtain ⟨b₁, q₁, d₁, sep₁, slog₁, sres₁, str₁, ste₁⟩ := s₁
  obtain ⟨b₂, q₂, d₂, sep₂, slog₂, sres₂, str₂, ste₂⟩ := s₂
  simp only [RunState.stripTele, RunState.mk.injEq, and_true] at hs
  obtain ⟨hA, hR, hC, hRep, hLog, hRes, hTr⟩ := hs
  subst hA; subst hR; subst hC; subst hRep; subst hLog; subst hRes; subst hTr
  rfl

theorem runStages_obs (w₁ w₂ : World) (hdf : w₁.dfAll = w₂.dfAll)
    (hcmd : w₁.cmd = w₂.cmd) (hE : EnvAgree w₁.env w₂.env) :
    ∀ (l : List StageSpec) (st₁ st₂ : RunState), st₁.stripTele = st₂.stripTele →
      (runStages w₁ l st₁).map RunState.stripTele
        = (runStages w₂ l st₂).map RunState.stripTele := by
  intro l
  induction l with
  | nil =>
      intro st₁ st₂ h
      simp only [runStages, Except.map]
      rw [h]
  | cons sp rest ih =>
      intro st₁ st₂ h
      simp only [runStages]
      rw [← get_input_agree hE sp.flag sp.dflt]
      by_cases hen : get_input w₁.env sp.flag sp.dflt
      · simp only [hen, if_true]
        have hstage := runStage_obs w₁ w₂ hdf hcmd sp.title sp.ops st₁ st₂ h
        cases h₁ : runStage w₁ sp.title sp.ops st₁ with
        | error e =>
            cases h₂ : runStage w₂ sp.title sp.ops st₂ with
            | error e' => cases e; cases e'; rfl
            | ok s₂ => rw [h₁, h₂] at hstage; simp [Except.map] at hstage
        | ok s₁ =>
            cases h₂ : runStage w₂ sp.title sp.ops st₂ with
            | error e => rw [h₁, h₂] at hstage; simp [Except.map] at hstage
            | ok s₂ =>
                rw [h₁, h₂] at hstage
                simp only [Except.map, Except.ok.injEq] at hstage
                exact ih s₁ s₂ hstage
      · simp only [hen, if_false]
        exact ih st₁ st₂ h

theorem initState_strip (w₁ w₂ : World) (hraw : w₁.raw = w₂.raw) :
    (initState w₁).stripTele = (initState w₂).stripTele := by
  simp [initState, RunState.stripTele, hraw]

theorem main_obs (w₁ w₂ : World) (hdf : w₁.dfAll = w₂.dfAll)
    (hroot : w₁.dfRoot = w₂.dfRoot) (hcmd : w₁.cmd = w₂.cmd)
    (hraw : w₁.raw = w₂.raw) (hE : EnvAgree w₁.env w₂.env) :
    (main w₁).map RunSummary.stripTele = (main w₂).map RunSummary.stripTele := by
  simp only [main, hdf, hroot, hraw]
  rw [← stages_agree hE]
  have hsts := runStages_obs w₁ w₂ hdf hcmd hE (stages w₁.env)
    (initState w₁) (initState w₂) (initState_strip w₁ w₂ hraw)
  cases h₁ : runStages w₁ (stages w₁.env) (initState w₁) with
  | error e =>
      cases h₂ : runStages w₂ (stages w₁.env) (initState w₂) with
      | error e' => cases e; cases e'; rfl
      | ok s₂ => rw [h₁, h₂] at hsts; simp [Except.map] at hsts
  | ok s₁ =>
      cases h₂ : runStages w₂ (stages w₁.env) (initState w₂) with
      | error e => rw [h₁, h₂] at hsts; simp [Except.map] at hsts
      | ok s₂ =>
          rw [h₁, h₂] at hsts
          simp only [Except.map, Except.ok.injEq] at hsts
          obtain ⟨b₁, q₁, d₁, sep₁, slog₁, sres₁, str₁, ste₁⟩ := s₁
          obtain ⟨b₂, q₂, d₂, sep₂, slog₂, sres₂, str₂, ste₂⟩ := s₂
          simp only [RunState.stripTele, RunState.mk.injEq, and_true] at hsts
          obtain ⟨hA, hR, hC, hRep, hLog, hRes, hTr⟩ := hsts
          subst hA; subst hR; subst hC; subst hRep; subst hLog; subst hRes; subst hTr
          rfl

/-! ## The claims -/

/-- C1 (counterexample): a failing operation invoked without a diagnostic
message — as at the android/dotnet/haskell/docker/tool-cache/swap call
sites — returns `False` but emits no warning line at all, contradicting
the claim that every non-zero-exit operation emits a warning line. -/
theorem run_command_failure_silent_cex :
    run_command "" (CmdOutcome.terminated 1)
      ["sudo", "rm", "-rf", "/usr/local/lib/android"] none
      = Except.ok (false, [], []) := by rfl

/-- C1 (amended): for every external operation that starts and terminates
with a non-zero exit status, `run_command` returns false and never raises;
it emits a `::warning::` line exactly when the caller supplied a
diagnostic message (otherwise it fails silently).  Subsequent operations
in the same batch still run — a batch `[A fails, B succeeds]` attempts
both, produces the results `[false, true]` and logs both commands — and a
pipeline whose commands all terminate completes, whatever the exit
statuses. -/
theorem run_command_failure_policy (dsn : String) (rc : Int) (hrc : rc ≠ 0)
    (A B : List String) (msg : String) (outc : Nat → CmdOutcome)
    (h0 : outc 0 = CmdOutcome.terminated rc) (h1 : outc 1 = CmdOutcome.terminated 0)
    (w : World) (hterm : ∀ k, ∃ rc', w.cmd k = CmdOutcome.terminated rc') :
    run_command dsn (CmdOutcome.terminated rc) A (some msg)
      = Except.ok (false, ["::warning::" ++ msg],
          if dsn ≠ "" then ["capture_exception: " ++ pyJoinSpace A] else []) ∧
    run_command dsn (CmdOutcome.terminated rc) A none
      = Except.ok (false, [],
          if dsn ≠ "" then ["capture_exception: " ++ pyJoinSpace A] else []) ∧
    (runOps dsn outc [⟨A, some msg⟩, ⟨B, none⟩] RunState.init).map
        (fun st => (st.results, st.cmdLog, st.transcript))
      = Except.ok ([false, true], [A, B], ["::warning::" ++ msg]) ∧
    (∃ s, main w = Except.ok s) := by
  refine ⟨?_, ?_, ?_, main_term w hterm⟩
  · simp [run_command, if_neg hrc]
  · simp [run_command, if_neg hrc]
  · simp [runOps, RunState.init, h0, h1, run_command, if_neg hrc, Except.map]

/-- C1 (witness): the amended failure policy at a concrete batch. -/
theorem run_command_failure_policy_witness :
    run_command "" (CmdOutcome.terminated 1) ["a"] (some "m")
      = Except.ok (false, ["::warning::" ++ "m"],
          if ("" : String) ≠ "" then ["capture_exception: " ++ pyJoinSpace ["a"]] else []) ∧
    run_command "" (CmdOutcome.terminated 1) ["a"] none
      = Except.ok (false, [],
          if ("" : String) ≠ "" then ["capture_exception: " ++ pyJoinSpace ["a"]] else []) ∧
    (runOps "" (fun k => if k = 0 then CmdOutcome.terminated 1 else CmdOutcome.terminated 0)
        [⟨["a"], some "m"⟩, ⟨["b"], none⟩] RunState.init).map
        (fun st => (st.results, st.cmdLog, st.transcript))
      = Except.ok ([false, true], [["a"], ["b"]], ["::warning::" ++ "m"]) ∧
    (∃ s, main negWorld = Except.ok s) :=
  run_command_failure_policy "" 1 (by decide) ["a"] ["b"] "m"
    (fun k => if k = 0 then CmdOutcome.terminated 1 else CmdOutcome.terminated 0)
    rfl rfl negWorld (fun _ => ⟨0, rfl⟩)

/-- C2: for every completed run, `total_saved = end_total - start_total`
and `root_saved = end_root - start_root`, where the four operands are
exactly the all-mounts probe taken first and last and the root probe taken
first and last — independent of whatever the per-stage deltas were. -/
theorem totals_from_global_probes (w : World) (s : RunSummary)
    (h : main w = .ok s) :
    s.total_saved = s.available_end - s.available_initial ∧
    s.root_saved = s.available_root_end - s.available_root_initial ∧
    s.available_initial = get_available_space (w.dfAll 0) ∧
    s.available_root_initial = get_available_space (w.dfRoot 0) ∧
    s.available_end = get_available_space
      (w.dfAll (1 + 2 * (enabledStages w.env (stages w.env)).length)) ∧
    s.available_root_end = get_available_space (w.dfRoot 1) := by
  simp only [main] at h
  split at h
  · exact absurd h (by simp)
  · rename_i st2 heq
    obtain ⟨hA, hR, -, -, -⟩ := runStages_ok w (stages w.env) (initState w) st2 heq
    have hA' : st2.aIdx = 1 + 2 * (enabledStages w.env (stages w.env)).length := hA
    have hR' : st2.rIdx = 1 := hR
    simp only [Except.ok.injEq] at h
    subst h
    refine ⟨rfl, rfl, rfl, rfl, ?_, ?_⟩
    · show get_available_space (w.dfAll st2.aIdx) = _
      rw [hA']
    · show get_available_space (w.dfRoot st2.rIdx) = _
      rw [hR']

/-- C2 (witness): the aggregate invariant on the concrete `negWorld`
run. -/
theorem totals_from_global_probes_witness :
    negSummary.total_saved = negSummary.available_end - negSummary.available_initial ∧
    negSummary.root_saved = negSummary.available_root_end - negSummary.available_root_initial ∧
    negSummary.available_initial = get_available_space (negWorld.dfAll 0) ∧
    negSummary.available_root_initial = get_available_space (negWorld.dfRoot 0) ∧
    negSummary.available_end = get_available_space
      (negWorld.dfAll (1 + 2 * (enabledStages negWorld.env (stages negWorld.env)).length)) ∧
    negSummary.available_root_end = get_available_space (negWorld.dfRoot 1) :=
  totals_from_global_probes negWorld negSummary negWorld_main

/-- C3: the probe sums the parsed fourth field of every data row (header
excluded), a short or unparsable row contributing zero, a rowless report
summing to zero; rows with available fields 100, 200, "x", 300 yield
600. -/
theorem available_space_row_sum :
    (∀ r : CompletedProcess, get_available_space r = spec_row_sum r.stdout) ∧
    get_available_space
      ⟨"Filesystem 1K-blocks Used Available Use% Mounted on\n/dev/sda1 1 1 100 1% /\n/dev/sdb1 1 1 200 1% /a\ntmpfs 1 1 x 1% /b\n/dev/sdc1 1 1 300 1% /c", 0⟩ = 600 ∧
    get_available_space
      ⟨"Filesystem 1K-blocks Used Available Use% Mounted on", 0⟩ = 0 :=
  ⟨fun r => by rw [get_available_space_eq_sum]; rfl, by decide, by decide⟩

/-- C3 (witness): the row-sum characterisation at a concrete report. -/
theorem available_space_row_sum_witness :
    get_available_space ⟨"Filesystem\nfoo 1 1 7 1% /", 0⟩
      = spec_row_sum "Filesystem\nfoo 1 1 7 1% /" :=
  available_space_row_sum.1 ⟨"Filesystem\nfoo 1 1 7 1% /", 0⟩

/-- C4: the stage table is exactly android, dotnet, haskell,
large-packages, docker-images, tool-cache, swap-storage in that order; a
completed run's reports are titled by exactly the enabled stages in that
order, and the attempted commands are exactly the enabled stages'
operations in order — a disabled stage contributes no report and no
command. -/
theorem stage_order_and_reports (w : World) (s : RunSummary)
    (h : main w = .ok s) :
    (stages w.env).map StageSpec.flag
      = ["android", "dotnet", "haskell", "large-packages", "docker-images",
         "tool-cache", "swap-storage"] ∧
    s.reports.map StageReport.name
      = (enabledStages w.env (stages w.env)).map StageSpec.title ∧
    s.cmdLog
      = (enabledStages w.env (stages w.env)).flatMap (fun sp => sp.ops.map Op.cmd) := by
  simp only [main] at h
  split at h
  · exact absurd h (by simp)
  · rename_i st2 heq
    obtain ⟨-, -, hRepN, hLog, -⟩ := runStages_ok w (stages w.env) (initState w) st2 heq
    simp only [Except.ok.injEq] at h
    subst h
    refine ⟨rfl, ?_, ?_⟩
    · show st2.reports.map StageReport.name = _
      simpa [initState, RunState.init] using hRepN
    · show st2.cmdLog = _
      simpa [initState, RunState.init] using hLog

/-- C4 (witness): stage order and reports on the concrete `negWorld`
run. -/
theorem stage_order_and_reports_witness :
    (stages negWorld.env).map StageSpec.flag
      = ["android", "dotnet", "haskell", "large-packages", "docker-images",
         "tool-cache", "swap-storage"] ∧
    negSummary.reports.map StageReport.name
      = (enabledStages negWorld.env (stages negWorld.env)).map StageSpec.title ∧
    negSummary.cmdLog
      = (enabledStages negWorld.env (stages negWorld.env)).flatMap
          (fun sp => sp.ops.map Op.cmd) :=
  stage_order_and_reports negWorld negSummary negWorld_main

/-- C5: every stage report of every completed run carries the exact
signed difference `saved = after - before` — never an absolute value —
and the difference is genuinely signed: in `negWorld` the android stage
reports `-5`. -/
theorem saved_is_signed_difference :
    (∀ (w : World) (s : RunSummary), main w = .ok s →
        ∀ r ∈ s.reports, r.saved = r.after - r.before) ∧
    (main negWorld).map (fun s => s.reports.map StageReport.saved)
      = Except.ok [-5] ∧
    (-5 : Int) < 0 := by
  refine ⟨?_, by rfl, by decide⟩
  intro w s h r hr
  simp only [main] at h
  split at h
  · exact absurd h (by simp)
  · rename_i st2 heq
    obtain ⟨-, -, -, -, hSaved⟩ := runStages_ok w (stages w.env) (initState w) st2 heq
    simp only [Except.ok.injEq] at h
    subst h
    rcases hSaved r hr with hmem | hs
    · simp [initState, RunState.init] at hmem
    · exact hs

/-- C5 (witness): the signed-difference law at the concrete report of
`negWorld`. -/
theorem saved_is_signed_difference_witness :
    negReport.saved = negReport.after - negReport.before :=
  saved_is_signed_difference.1 negWorld negSummary negWorld_main negReport (by decide)

/-- C6 (counterexample): `format_byte_count 1048576` renders as
`"1000MiB"` — one thousand of the Mi unit, not approximately 1.0 of it
(the kilobyte count is scaled by 1000, not 1024, before the
power-of-1024 formatting) — and the returned string has no fixed minimum
field width: the requested padding is stripped away, so `format 0` is two
characters. -/
theorem format_byte_count_cex :
    format_byte_count 1048576 = "1000MiB" ∧
    (format_byte_count 0).data.length < 7 := by decide

/-- C6 (amended): `format_byte_count` hands the decimal kilobyte count
times 1000 to the power-of-1024 formatter and strips the padding from the
result, so: `format 0 = "0B"` (zero magnitude with the unit suffix),
`format (-500) = "-489KiB"` (negative sign included), and
`format 1048576 = "1000MiB"` (one thousand of the Mi binary unit). -/
theorem format_byte_count_values :
    format_byte_count 0 = "0B" ∧
    format_byte_count (-500) = "-489KiB" ∧
    format_byte_count 1048576 = "1000MiB" := by
  exact ⟨by decide, by decide, by decide⟩

/-- C7: a stage flag named `tool-cache` is read from `INPUT_TOOL_CACHE`
(hyphens to underscores, uppercased, prefixed); the flag is true exactly
when the defaulted value equals `"true"` case-insensitively and false for
anything else; the wired defaults enable android, dotnet, haskell,
large-packages, docker-images and swap-storage and disable tool-cache. -/
theorem config_flag_parsing :
    (∀ (env : String → Option String) (d : String),
      get_input env "tool-cache" d
        = (pyLower ((env "INPUT_TOOL_CACHE").getD d) == "true")) ∧
    (∀ env : String → Option String,
      (stages env).map (fun sp => (sp.flag, sp.dflt))
        = [("android", "true"), ("dotnet", "true"), ("haskell", "true"),
           ("large-packages", "true"), ("docker-images", "true"),
           ("tool-cache", "false"), ("swap-storage", "true")]) ∧
    get_input (fun _ => none) "android" "true" = true ∧
    get_input (fun _ => none) "tool-cache" "false" = false ∧
    get_input (fun v => if v = "INPUT_DOCKER_IMAGES" then some "TrUe" else none)
      "docker-images" "true" = true ∧
    get_input (fun v => if v = "INPUT_ANDROID" then some "yes" else none)
      "android" "true" = false :=
  ⟨fun _ _ => rfl, fun _ => rfl, by decide, by decide, by decide, by decide⟩

/-- C7 (witness): the name-mangling law at a concrete environment. -/
theorem config_flag_parsing_witness :
    get_input (fun _ => none) "tool-cache" "false"
      = (pyLower ((none : Option String).getD "false") == "true") :=
  config_flag_parsing.1 (fun _ => none) "false"

/-- C8 (counterexample): a malformed report whose fourth field parses to
a negative integer makes `get_available_space` return a negative sum, so
a measurement is not always non-negative. -/
theorem measurement_nonneg_cex :
    get_available_space
      ⟨"Filesystem 1K-blocks Used Available Use% Mounted on\nfoo 0 0 -5 0% /", 7⟩ = -5 ∧
    ¬ (0 ≤ get_available_space
      ⟨"Filesystem 1K-blocks Used Available Use% Mounted on\nfoo 0 0 -5 0% /", 7⟩) := by
  decide

/-- C8 (amended): `get_available_space` is non-negative for every report
whose data rows all contribute non-negatively — in particular for every
report whose fourth fields are unsigned counts, as `df` produces. -/
theorem measurement_nonneg_of_rows (r : CompletedProcess)
    (h : ∀ line ∈ dataRows r.stdout, 0 ≤ rowValue line) :
    0 ≤ get_available_space r := by
  rw [get_available_space_eq_sum]
  refine List.sum_nonneg ?_
  intro x hx
  obtain ⟨l, hl, rfl⟩ := List.mem_map.mp hx
  exact h l hl

/-- C8 (witness): non-negativity at a concrete well-formed report. -/
theorem measurement_nonneg_of_rows_witness :
    0 ≤ get_available_space ⟨"Filesystem\nfoo 1 1 7 1% /x", 0⟩ :=
  measurement_nonneg_of_rows ⟨"Filesystem\nfoo 1 1 7 1% /x", 0⟩ (by decide)

/-- C9: telemetry is noninterfering — two runs over the same world that
differ only in the `SENTRY_DSN` environment variable produce the same
measurements, saved deltas, stage reports, `run_command` booleans,
command log and console transcript (everything except the telemetry
channel itself). -/
theorem telemetry_noninterference (w : World) (d₁ d₂ : Option String) :
    (main (setDsn w d₁)).map RunSummary.stripTele
      = (main (setDsn w d₂)).map RunSummary.stripTele :=
  main_obs _ _ rfl rfl rfl rfl (fun v hv => by simp [setDsn, if_neg hv])

/-- C9 (witness): noninterference at a concrete world, DSN configured
versus absent. -/
theorem telemetry_noninterference_witness :
    (main (setDsn negWorld (some "https://key@sentry.example/1"))).map RunSummary.stripTele
      = (main (setDsn negWorld none)).map RunSummary.stripTele :=
  telemetry_noninterference negWorld (some "https://key@sentry.example/1") none

/-- C10: the probe is total over whatever the terminated `df` process
produced: its value depends only on the captured stdout, never on the
exit status, and empty or header-only output silently yields 0. -/
theorem probe_total_on_any_output :
    (∀ (stdout : String) (rc₁ rc₂ : Int),
      get_available_space ⟨stdout, rc₁⟩ = get_available_space ⟨stdout, rc₂⟩) ∧
    get_available_space ⟨"", 1⟩ = 0 ∧
    get_available_space ⟨"Filesystem 1K-blocks Used Available Use% Mounted on", 2⟩ = 0 :=
  ⟨fun _ _ _ => rfl, by decide, by decide⟩

/-- C10 (witness): exit-status independence at a concrete failing
probe. -/
theorem probe_total_on_any_output_witness :
    get_available_space ⟨"", 1⟩ = get_available_space ⟨"", 5⟩ :=
  probe_total_on_any_output.1 "" 1 5

end FreeDiskSpace
